import Mathlib

/-!
Verification of the analyzer pipeline in `server.js` (expertec/udelApps).

The development shallowly embeds the first (current) revision of `server.js`:
the `/analyzeVideo` pipeline (stage upload to Gemini Files, readiness poll,
model-fallback evaluation, Firestore ledger writes, best-effort cleanup) and
the `/uploadToVimeo` publish gate.  External collaborators (axios, Firestore,
the Gemini and Vimeo HTTP APIs) are modelled as oracle values supplied in an
environment record; the JavaScript platform builtins the pipeline relies on
(`JSON.parse`, `||` truthiness, template-literal rendering) are modelled as
executable Lean functions below.
-/

/-- Model of a JavaScript exception as observed by the handlers: `message` is
`e.message`; `respErrorMessage` models `e?.response?.data?.error?.message` and
`respError` models `e?.response?.data?.error` when the error came from an HTTP
response (both `none` for a plain `new Error(...)`). -/
structure JsErr where
  message : String
  respErrorMessage : Option String
  respError : Option String
deriving Repr, DecidableEq

/-- Constructor for `new Error(message)`: no HTTP response payload. -/
def JsErr.plain (m : String) : JsErr := ⟨m, none, none⟩

/-- Model of the JavaScript string expression `a || b`: the empty string is
falsy, any other string is truthy. -/
def jsOr (a b : String) : String := if a = "" then b else a

/-- Model of truthiness for an optional string field: `undefined`/`null`
(`none`) and the empty string are falsy. -/
def strTruthy (o : Option String) : Option String :=
  match o with
  | some s => if s = "" then none else some s
  | none => none

/-- Model of truthiness of an optional boolean field (`undefined` is falsy). -/
def jsTruthyB (o : Option Bool) : Bool := o.getD false

/-- Model of a parsed JSON value (`JSON.parse` output).  Numbers are rationals
(JavaScript numbers are floats; every literal the pipeline handles is exactly
representable as a rational). -/
inductive Json where
  | null : Json
  | bool (b : Bool) : Json
  | num (q : Rat) : Json
  | str (s : String) : Json
  | arr (elems : List Json) : Json
  | obj (fields : List (String × Json)) : Json
deriving Repr

/-- Association-list lookup of an object property (first match; the parser
below keeps at most one entry per key). -/
def lookupMember : List (String × Json) → String → Option Json
  | [], _ => none
  | (k0, v0) :: rest, k => if k0 = k then some v0 else lookupMember rest k

/-- Insert or overwrite an object property, keeping the position of the first
occurrence and the value of the last, as `JSON.parse` does for duplicate
keys. -/
def setMember : List (String × Json) → String → Json → List (String × Json)
  | [], k, v => [(k, v)]
  | (k0, v0) :: rest, k, v =>
    if k0 = k then (k0, v) :: rest else (k0, v0) :: setMember rest k v

/-- JSON whitespace characters. -/
def jsonWs (c : Char) : Bool := c = ' ' || c = '\n' || c = '\t' || c = '\r'

/-- Drop leading JSON whitespace. -/
def skipWs (cs : List Char) : List Char := cs.dropWhile jsonWs

/-- Hexadecimal digit value, for string `\u` escapes. -/
def hexVal (c : Char) : Option Nat :=
  if '0' ≤ c ∧ c ≤ '9' then some (c.toNat - 48)
  else if 'a' ≤ c ∧ c ≤ 'f' then some (c.toNat - 87)
  else if 'A' ≤ c ∧ c ≤ 'F' then some (c.toNat - 55)
  else none

/-- Single-character JSON string escapes. -/
def escMap (c : Char) : Option Char :=
  if c = '"' then some '"'
  else if c = '\\' then some '\\'
  else if c = '/' then some '/'
  else if c = 'b' then some (Char.ofNat 8)
  else if c = 'f' then some (Char.ofNat 12)
  else if c = 'n' then some '\n'
  else if c = 'r' then some '\r'
  else if c = 't' then some '\t'
  else none

/-- Parse the body of a JSON string literal (after the opening quote); returns
the decoded characters and the remaining input.  Surrogate-pair recombination
is not modelled; no theorem depends on non-BMP escapes. -/
def parseStrChars : List Char → Except String (List Char × List Char)
  | [] => .error "unterminated string"
  | '"' :: rest => .ok ([], rest)
  | '\\' :: 'u' :: a :: b :: c :: d :: rest =>
    match hexVal a, hexVal b, hexVal c, hexVal d with
    | some x, some y, some z, some w =>
      match parseStrChars rest with
      | .error e => .error e
      | .ok (sc, r2) => .ok (Char.ofNat (((x * 16 + y) * 16 + z) * 16 + w) :: sc, r2)
    | _, _, _, _ => .error "invalid unicode escape"
  | '\\' :: e :: rest =>
    match escMap e with
    | some ch =>
      match parseStrChars rest with
      | .error er => .error er
      | .ok (sc, r2) => .ok (ch :: sc, r2)
    | none => .error "invalid escape"
  | c :: rest =>
    match parseStrChars rest with
    | .error e => .error e
    | .ok (sc, r2) => .ok (c :: sc, r2)

/-- Decimal digits to a natural number. -/
def digitsToNat (ds : List Char) : Nat :=
  ds.foldl (fun a c => a * 10 + (c.toNat - 48)) 0

/-- Parse an optional JSON exponent part: returns (exponent is negative,
exponent digits, remaining input, well-formed). -/
def parseExp : List Char → Bool × List Char × List Char × Bool
  | 'e' :: '+' :: r => (false, r.takeWhile Char.isDigit, r.dropWhile Char.isDigit, !(r.takeWhile Char.isDigit).isEmpty)
  | 'e' :: '-' :: r => (true, r.takeWhile Char.isDigit, r.dropWhile Char.isDigit, !(r.takeWhile Char.isDigit).isEmpty)
  | 'e' :: r => (false, r.takeWhile Char.isDigit, r.dropWhile Char.isDigit, !(r.takeWhile Char.isDigit).isEmpty)
  | 'E' :: '+' :: r => (false, r.takeWhile Char.isDigit, r.dropWhile Char.isDigit, !(r.takeWhile Char.isDigit).isEmpty)
  | 'E' :: '-' :: r => (true, r.takeWhile Char.isDigit, r.dropWhile Char.isDigit, !(r.takeWhile Char.isDigit).isEmpty)
  | 'E' :: r => (false, r.takeWhile Char.isDigit, r.dropWhile Char.isDigit, !(r.takeWhile Char.isDigit).isEmpty)
  | r => (false, [], r, true)

/-- Parse a JSON number literal.  The branch without fraction and exponent
digits returns the same value as the general formula (division by 10^0 and
multiplication by 10^0); it is split out so integer literals reduce
definitionally. -/
def parseNumber (cs : List Char) : Except String (Json × List Char) :=
  let p :=
    match cs with
    | '-' :: r => (true, r)
    | _ => (false, cs)
  let neg := p.1
  let cs1 := p.2
  let intDigits := cs1.takeWhile Char.isDigit
  let rest1 := cs1.dropWhile Char.isDigit
  if intDigits.isEmpty then .error "invalid number"
  else if 1 < intDigits.length ∧ intDigits.head? = some '0' then .error "invalid number"
  else
    let fr :=
      match rest1 with
      | '.' :: r => (r.takeWhile Char.isDigit, r.dropWhile Char.isDigit, !(r.takeWhile Char.isDigit).isEmpty)
      | _ => ([], rest1, true)
    if fr.2.2 = false then .error "invalid number"
    else
      let ex := parseExp fr.2.1
      if ex.2.2.2 = false then .error "invalid number"
      else
        let mant : Int := (if neg then -1 else 1) * Int.ofNat (digitsToNat (intDigits ++ fr.1))
        if fr.1.isEmpty ∧ ex.2.1.isEmpty then
          .ok (.num (mant : Rat), ex.2.2.1)
        else
          let base : Rat := (mant : Rat) / ((10 : Rat) ^ fr.1.length)
          let e10 : Rat := (10 : Rat) ^ digitsToNat ex.2.1
          let q : Rat := if ex.1 then base / e10 else base * e10
          .ok (.num q, ex.2.2.1)

/-- Work items of the JSON parser: a value, the members of an object after
the opening brace (nonempty case), or the elements of an array after the
opening bracket (nonempty case).  A single task type keeps the parser one
structurally recursive function, so it reduces definitionally. -/
inductive ParseTask where
  | val (cs : List Char)
  | members (cs : List Char) (acc : List (String × Json))
  | elems (cs : List Char) (acc : List Json)

/-- The JSON parser.  The fuel argument bounds recursion depth; the top-level
entry point supplies more fuel than any input of that length can consume, so
the limit is unreachable. -/
def parseJ : Nat → ParseTask → Except String (Json × List Char)
  | 0, _ => .error "recursion limit"
  | Nat.succ fuel, .val cs =>
    match skipWs cs with
    | [] => .error "unexpected end of JSON input"
    | c :: rest =>
      if c = '\x7b' then
        match skipWs rest with
        | '\x7d' :: r2 => .ok (.obj [], r2)
        | r2 => parseJ fuel (.members r2 [])
      else if c = '[' then
        match skipWs rest with
        | ']' :: r2 => .ok (.arr [], r2)
        | r2 => parseJ fuel (.elems r2 [])
      else if c = '"' then
        match parseStrChars rest with
        | .error e => .error e
        | .ok (sc, r2) => .ok (.str (String.mk sc), r2)
      else if c = 't' then
        match rest with
        | 'r' :: 'u' :: 'e' :: r2 => .ok (.bool true, r2)
        | _ => .error "invalid literal"
      else if c = 'f' then
        match rest with
        | 'a' :: 'l' :: 's' :: 'e' :: r2 => .ok (.bool false, r2)
        | _ => .error "invalid literal"
      else if c = 'n' then
        match rest with
        | 'u' :: 'l' :: 'l' :: r2 => .ok (.null, r2)
        | _ => .error "invalid literal"
      else parseNumber (c :: rest)
  | Nat.succ fuel, .members cs acc =>
    match skipWs cs with
    | '"' :: rest =>
      match parseStrChars rest with
      | .error e => .error e
      | .ok (kc, r2) =>
        match skipWs r2 with
        | ':' :: r3 =>
          match parseJ fuel (.val r3) with
          | .error e => .error e
          | .ok (v, r4) =>
            match skipWs r4 with
            | ',' :: r5 => parseJ fuel (.members r5 (setMember acc (String.mk kc) v))
            | '\x7d' :: r5 => .ok (.obj (setMember acc (String.mk kc) v), r5)
            | _ => .error "expected comma or closing brace"
        | _ => .error "expected colon"
    | _ => .error "expected string key"
  | Nat.succ fuel, .elems cs acc =>
    match parseJ fuel (.val cs) with
    | .error e => .error e
    | .ok (v, r2) =>
      match skipWs r2 with
      | ',' :: r3 => parseJ fuel (.elems r3 (acc ++ [v]))
      | ']' :: r3 => .ok (.arr (acc ++ [v]), r3)
      | _ => .error "expected comma or closing bracket"

/-- Model of `JSON.parse`.  The error detail strings are this model's own;
the source only forwards `parseError.message` opaquely. -/
def jsonParse (s : String) : Except String Json :=
  match parseJ (s.length + 1) (.val s.toList) with
  | .error e => .error e
  | .ok (j, rest) =>
    if (skipWs rest).isEmpty then .ok j else .error "unexpected trailing characters"

/-- Model of JavaScript `ToNumber` on a parsed JSON value, for the comparison
`result.score >= SCORE_THRESHOLD`.  `none` stands for NaN.  Coercion of
strings, arrays and objects to numbers is not modelled (returned as NaN); no
theorem in this development exercises those cases. -/
def jsToNumber : Json → Option Rat
  | .num q => some q
  | .null => some 0
  | .bool b => some (if b then 1 else 0)
  | .str _ => none
  | .arr _ => none
  | .obj _ => none

/-- Model of the JavaScript comparison `v >= t` where `v` is a possibly-absent
property value (`none` = `undefined`, which compares as NaN, hence false) and
`t` is a number. -/
def jsGe (v : Option Json) (t : Rat) : Bool :=
  match v with
  | some j =>
    match jsToNumber j with
    | some q => decide (t ≤ q)
    | none => false
  | none => false

/-- Model of the property access `result.score` on a parsed JSON value:
objects yield the property (or `undefined`), primitives yield `undefined`,
and `null` raises a TypeError (message text approximated). -/
def jsGetProp (j : Json) (k : String) : Except JsErr (Option Json) :=
  match j with
  | .null => .error (JsErr.plain ("Cannot read properties of null (reading " ++ k ++ ")"))
  | .obj fields => .ok (lookupMember fields k)
  | _ => .ok none

/-- Model of the optional-chaining access `x?.k` on an optional stored value:
`undefined`/`null` short-circuit to `undefined`, non-objects yield
`undefined`. -/
def jsOptChainProp (o : Option Json) (k : String) : Option Json :=
  match o with
  | some (.obj fields) => lookupMember fields k
  | _ => none

/-- Rendering of a rational in a JavaScript template literal, for the integral
values that occur in this pipeline (non-integral formatting is not
JS-exact). -/
def ratToJsString (q : Rat) : String :=
  if q.den = 1 then toString q.num else toString q

/-- Rendering of a possibly-absent JSON value in a template literal
(`undefined` renders as the string "undefined").  Array rendering is
approximated; no theorem exercises it. -/
def jsTemplate (v : Option Json) : String :=
  match v with
  | none => "undefined"
  | some .null => "null"
  | some (.bool true) => "true"
  | some (.bool false) => "false"
  | some (.num q) => ratToJsString q
  | some (.str s) => s
  | some (.arr _) => ""
  | some (.obj _) => "[object Object]"

/-- Model of `retryWithModels`'s attempt loop (server.js 44-69), restructured
as one pass over the sequence "initial model, then the remaining candidates":
each candidate is tried once in order; the first success is returned; when the
list is exhausted the last recorded error is thrown (`lastError || new
Error('Todos los modelos fallaron')`).  The second component is the ordered
log of models attempted. -/
def tryModelsAux {R : Type} (op : String → Except JsErr R) :
    List String → Option JsErr → Except JsErr R × List String
  | [], last => (.error (last.getD (JsErr.plain "Todos los modelos fallaron")), [])
  | m :: ms, last =>
    match op m with
    | .ok r => (.ok r, [m])
    | .error e =>
      let p := tryModelsAux op ms (some e)
      (p.1, m :: p.2)

/-- Model of `retryWithModels(operation, initialModel, validModels)`
(server.js 44-69): first attempt with `initialModel`, then the loop over
`validModels.filter(m => m !== initialModel)`. -/
def retryWithModels {R : Type} (op : String → Except JsErr R)
    (initialModel : String) (validModels : List String) :
    Except JsErr R × List String :=
  tryModelsAux op (initialModel :: validModels.filter (fun m => m != initialModel)) none

/-- Firestore field names of the `analyses/{analysisId}` document that the two
handlers write. -/
inductive FieldName where
  | status | createdAt | updatedAt | fileName | fileSize | mimeType
  | result | error | qualifiesForVimeo | scoreThreshold
  | vimeoStatus | vimeoUri | vimeoLink | vimeoVideoId | vimeoUploadedAt | vimeoError
deriving Repr, DecidableEq

/-- Values written to ledger fields.  `serverTimestamp` models
`FieldValue.serverTimestamp()`; `undef` models a JavaScript `undefined`
flowing into a write. -/
inductive FieldVal where
  | s (v : String)
  | n (v : Nat)
  | num (v : Rat)
  | b (v : Bool)
  | j (v : Json)
  | undef
  | serverTimestamp
deriving Repr

/-- Observable events of one request: ledger writes (`merge` is true for
`ref.set(..., merge: true)` and false for `ref.update(...)`), the external
HTTP calls, and the best-effort remote delete with the outcome the provider
returned (which the code swallows). -/
inductive Event where
  | write (merge : Bool) (fields : List (FieldName × FieldVal))
  | stageInitCall
  | stageUploadCall
  | pollCall
  | modelCall (model : String)
  | deleteCall (outcome : Except JsErr Unit)
  | vimeoCreateCall
  | vimeoPatchCall
  | vimeoDetailsCall
deriving Repr

/-- Ledger writes of an event trace, in order. -/
def ledgerWrites (tr : List Event) : List (Bool × List (FieldName × FieldVal)) :=
  tr.filterMap fun e =>
    match e with
    | .write m fs => some (m, fs)
    | _ => none

/-- Number of remote-delete attempts in a trace. -/
def cleanupCount (tr : List Event) : Nat :=
  tr.countP fun e =>
    match e with
    | .deleteCall _ => true
    | _ => false

/-- Value of a named field in a write's field list (first occurrence). -/
def fieldOf : List (FieldName × FieldVal) → FieldName → Option FieldVal
  | [], _ => none
  | (f0, v0) :: rest, f => if f0 = f then some v0 else fieldOf rest f

/-- Module-level configuration of server.js: `VIDEO_MODEL`,
`VALID_VIDEO_MODELS`, `SCORE_THRESHOLD` and whether `VIMEO_ACCESS_TOKEN` is
set.  Spec section 9 directs that these env-derived values be treated as
explicit configuration, so the pipeline takes them as a parameter. -/
structure Cfg where
  videoModel : String
  validVideoModels : List String
  scoreThreshold : Rat
  vimeoConfigured : Bool

/-- Model of the dedup `filter((v, i, a) => a.indexOf(v) === i)`: keep each
element only at its first occurrence. -/
def keepFirsts : List String → List String → List String
  | _, [] => []
  | seen, x :: xs =>
    if seen.contains x then keepFirsts seen xs else x :: keepFirsts (x :: seen) xs

/-- Candidate list construction (server.js 24-29): the configured model
followed by the fixed fallbacks, duplicates removed keeping first
occurrences. -/
def mkCandidateList (model : String) : List String :=
  keepFirsts [] [model, "gemini-2.0-flash-exp", "gemini-1.5-pro", "gemini-1.5-flash"]

/-- Configuration when no environment variables are set: the defaults of
server.js 20-36 and 70-71. -/
def defaultCfg : Cfg :=
  ⟨"gemini-2.0-flash-exp", mkCandidateList "gemini-2.0-flash-exp", 10, true⟩

/-- The `file` object inside the `files:upload` response (name and uri may be
absent). -/
structure GFile where
  name : Option String
  uri : Option String
deriving Repr

/-- Response body of the staging finalize call (`{ file: { name, uri, ... } }`,
possibly missing the `file` member). -/
structure UploadedData where
  file : Option GFile
deriving Repr

/-- Gemini `generateContent` response as consumed by the pipeline: the value of
`res?.data?.candidates?.[0]?.content?.parts?.[0]?.text` (`none` when any step
of that optional chain is absent). -/
structure GenResp where
  text : Option String
deriving Repr

/-- Oracle for the external world during one `/analyzeVideo` request.  `poll`
and `pollTime` give, for the k-th readiness GET, the value of
`r?.data?.file?.state || r?.data?.state` (after truthiness, `none` = falsy)
and the call's duration in ms; `genContent` maps (model, fileUri) to the
evaluation response; `deleteOutcome` is the result of the cleanup DELETE,
which the code discards. -/
structure AEnv where
  stageInit : Except JsErr (Option String)
  stageFinalize : Except JsErr UploadedData
  poll : Nat → Except JsErr (Option String)
  pollTime : Nat → Nat
  genContent : String → String → Except JsErr GenResp
  deleteOutcome : Except JsErr Unit

/-- Multer file object: the fields of `req.file` the handlers read. -/
structure FilePart where
  originalname : String
  size : Nat
  mimeType : String
deriving Repr

/-- Request to either endpoint after body parsing: `analysisId` from the form
body and the uploaded file, each possibly absent. -/
structure AReq where
  analysisId : Option String
  file : Option FilePart
deriving Repr

/-- Model of `extractGeminiFileRef` (server.js 97-106) applied to the
`uploaded` variable (which may still be null): take `uploaded?.file`; if
`f.name` is truthy return it; else if `f.uri` is truthy apply the regex
`/\/files\/([^/]+)$/` and return `files/$1` on a match or the uri itself
otherwise; else null. -/
def extractFromUri (uri : String) : String :=
  let parts := uri.splitOn "/files/"
  let lastPart := parts.getLastD ""
  if 2 ≤ parts.length ∧ lastPart ≠ "" ∧ ¬ lastPart.contains '/' then
    "files/" ++ lastPart
  else uri

/-- See `extractFromUri`; this is the whole of `extractGeminiFileRef`. -/
def extractGeminiFileRef (uploaded : Option UploadedData) : Option String :=
  match uploaded.bind UploadedData.file with
  | none => none
  | some f =>
    match strTruthy f.name with
    | some n => some n
    | none =>
      match strTruthy f.uri with
      | some uri => some (extractFromUri uri)
      | none => none

/-- Timeout message of `waitGeminiFileReady` (server.js 117):
`El archivo en Gemini no quedó listo (estado: ${state || 'desconocido'})`. -/
def timeoutMsg (st : Option String) : String :=
  "El archivo en Gemini no quedó listo (estado: " ++ (strTruthy st).getD "desconocido" ++ ")"

/-- Model of the polling loop of `waitGeminiFileReady` (server.js 109-120).
Iteration k: fetch the state (a failed GET propagates); return on `ACTIVE`;
throw the timeout error once the elapsed time (previous sleeps plus fetch
durations) exceeds `timeoutMs`; otherwise sleep `intervalMs` and repeat.  The
fuel argument only bounds the recursion; `waitGeminiFileReady` supplies
`timeoutMs + 2`, which is unreachable whenever `intervalMs ≥ 1` since every
iteration adds at least `intervalMs` to the elapsed time.  Returns the number
of GETs made and the outcome. -/
def waitLoop (poll : Nat → Except JsErr (Option String)) (pollTime : Nat → Nat)
    (timeoutMs intervalMs : Nat) : Nat → Nat → Nat → Nat × Except JsErr Unit
  | 0, _, _ => (0, .error (JsErr.plain "poll recursion limit"))
  | Nat.succ fuel, k, elapsed =>
    match poll k with
    | .error e => (1, .error e)
    | .ok st =>
      if st = some "ACTIVE" then (1, .ok ())
      else
        let elapsed2 := elapsed + pollTime k
        if timeoutMs < elapsed2 then (1, .error (JsErr.plain (timeoutMsg st)))
        else
          let p := waitLoop poll pollTime timeoutMs intervalMs fuel (k + 1) (elapsed2 + intervalMs)
          (p.1 + 1, p.2)

/-- Model of `waitGeminiFileReady` (server.js 109-120); the pipeline calls it
with `timeoutMs = 45000` and `intervalMs = 1200`.  The returned file metadata
is discarded by the caller, so the success value is unit. -/
def waitGeminiFileReady (env : AEnv) (timeoutMs intervalMs : Nat) : Nat × Except JsErr Unit :=
  waitLoop env.poll env.pollTime timeoutMs intervalMs (timeoutMs + 2) 0 0

/-- Model of `uploadToGemini` (server.js 123-154): the resumable-session
initiation (fatal `No se obtuvo upload URL de Gemini` when the
`x-goog-upload-url` header is falsy), then the single-shot finalize transfer.
Returns the call events and the parsed response body. -/
def uploadToGemini (env : AEnv) : List Event × Except JsErr UploadedData :=
  match env.stageInit with
  | .error e => ([.stageInitCall], .error e)
  | .ok none => ([.stageInitCall], .error (JsErr.plain "No se obtuvo upload URL de Gemini"))
  | .ok (some _) =>
    match env.stageFinalize with
    | .error e => ([.stageInitCall, .stageUploadCall], .error e)
    | .ok d => ([.stageInitCall, .stageUploadCall], .ok d)

/-- One attempt of the evaluation operation passed to `retryWithModels` by
`geminiAnalyze` (server.js 171-403): call `generateContent` for the given
model, take the response text with the `|| '\x7b\x7d'` default, and
`JSON.parse` it, rewrapping a parse failure as
`Error parseando respuesta de Gemini: ...`.  The rubric prompt text only goes
into the outbound request body and is not modelled. -/
def analyzeOp (gen : String → String → Except JsErr GenResp)
    (fileUri : String) (model : String) : Except JsErr Json :=
  match gen model fileUri with
  | .error e => .error e
  | .ok resp =>
    let txt := (strTruthy resp.text).getD "\x7b\x7d"
    match jsonParse txt with
    | .ok j => .ok j
    | .error pe => .error (JsErr.plain ("Error parseando respuesta de Gemini: " ++ pe))

/-- Model of `geminiAnalyze` (server.js 171-403): `retryWithModels` over the
configured video-model candidates. -/
def geminiAnalyze (cfg : Cfg) (env : AEnv) (fileUri : String) :
    Except JsErr Json × List String :=
  retryWithModels (analyzeOp env.genContent fileUri) cfg.videoModel cfg.validVideoModels

/-- Outcome of the try-block body of `/analyzeVideo` up to the evaluation
result: the external-call events it made, the value of the `uploaded`
variable at exit (read by the `finally` cleanup), and the evaluation result
or the thrown error. -/
structure CoreOut where
  events : List Event
  uploaded : Option UploadedData
  outcome : Except JsErr Json

/-- Steps 1-4 of the `/analyzeVideo` try block (server.js 552-570): stage the
payload, extract the file reference (fatal
`No se obtuvo referencia del archivo (name/uri) de Gemini` when absent), wait
for `ACTIVE` with the fixed 45000/1200 deadline, then evaluate with model
fallback using `uploaded?.file?.uri || "https://.../v1beta/" + fileRef`. -/
def analyzeCore (cfg : Cfg) (env : AEnv) : CoreOut :=
  match uploadToGemini env with
  | (evs, .error e) => ⟨evs, none, .error e⟩
  | (evs, .ok up) =>
    match extractGeminiFileRef (some up) with
    | none => ⟨evs, some up, .error (JsErr.plain "No se obtuvo referencia del archivo (name/uri) de Gemini")⟩
    | some fileRef =>
      match waitGeminiFileReady env 45000 1200 with
      | (n, .error e) => ⟨evs ++ List.replicate n .pollCall, some up, .error e⟩
      | (n, .ok _) =>
        let fileUri := (strTruthy (up.file.bind GFile.uri)).getD
          ("https://generativelanguage.googleapis.com/v1beta/" ++ fileRef)
        let p := geminiAnalyze cfg env fileUri
        ⟨evs ++ List.replicate n .pollCall ++ p.2.map Event.modelCall, some up, p.1⟩

/-- Fields of the initial `status: 'processing'` merge write (server.js
542-549). -/
def procFields (f : FilePart) : List (FieldName × FieldVal) :=
  [(.status, .s "processing"), (.createdAt, .serverTimestamp), (.updatedAt, .serverTimestamp),
   (.fileName, .s f.originalname), (.fileSize, .n f.size), (.mimeType, .s f.mimeType)]

/-- Fields of the `status: 'done'` merge write (server.js 576-583). -/
def doneFields (result : Json) (qualifies : Bool) (threshold : Rat) : List (FieldName × FieldVal) :=
  [(.status, .s "done"), (.result, .j result), (.qualifiesForVimeo, .b qualifies),
   (.scoreThreshold, .num threshold),
   (.vimeoStatus, .s (if qualifies then "pending" else "not_applicable")),
   (.updatedAt, .serverTimestamp)]

/-- The ledger error message `e?.response?.data?.error?.message || e.message
|| 'unknown'` (server.js 598). -/
def ledgerMessage (e : JsErr) : String :=
  jsOr (e.respErrorMessage.getD "") (jsOr e.message "unknown")

/-- Fields of the `status: 'error'` merge write (server.js 596-600). -/
def errorFields (e : JsErr) : List (FieldName × FieldVal) :=
  [(.status, .s "error"), (.error, .s (ledgerMessage e)), (.updatedAt, .serverTimestamp)]

/-- HTTP responses of `/analyzeVideo`: 400 validation rejections, the 200
success body `ok/analysisId/score/qualifiesForVimeo`, and the 500 body with
`e?.message || 'Internal error'`. -/
inductive AResp where
  | badRequest (error : String)
  | ok (analysisId : String) (score : Option Json) (qualifiesForVimeo : Bool)
  | serverError (error : String)
deriving Repr

/-- The `finally` cleanup of `/analyzeVideo` (server.js 603-607): fire the
best-effort delete iff `extractGeminiFileRef(uploaded)` is truthy, recording
the provider's outcome (which the code discards via `deleteGeminiFile`'s
internal catch plus `.catch(() => \x7b\x7d)`). -/
def cleanupEvents (cfg : Cfg) (env : AEnv) : List Event :=
  match extractGeminiFileRef (analyzeCore cfg env).uploaded with
  | some _ => [.deleteCall env.deleteOutcome]
  | none => []

/-- Model of the `/analyzeVideo` handler (server.js 533-608): validate, write
the `processing` ledger document, run the pipeline, write exactly one
terminal ledger state (`done` with result/qualification, or `error` with the
message — including the TypeError thrown by `result.score` when the parsed
result is JSON null), respond, and in `finally` fire the best-effort remote
delete iff a file reference can be extracted from `uploaded`. -/
def analyzeVideo (cfg : Cfg) (env : AEnv) (req : AReq) : AResp × List Event :=
  match req.analysisId with
  | none => (.badRequest "analysisId requerido", [])
  | some id =>
    match req.file with
    | none => (.badRequest "file requerido", [])
    | some f =>
      let c := analyzeCore cfg env
      let cleanupEvs : List Event := cleanupEvents cfg env
      match c.outcome with
      | .error e =>
        (.serverError (jsOr e.message "Internal error"),
         .write true (procFields f) :: c.events ++ [.write true (errorFields e)] ++ cleanupEvs)
      | .ok result =>
        match jsGetProp result "score" with
        | .error e =>
          (.serverError (jsOr e.message "Internal error"),
           .write true (procFields f) :: c.events ++ [.write true (errorFields e)] ++ cleanupEvs)
        | .ok scoreOpt =>
          let q := jsGe scoreOpt cfg.scoreThreshold
          (.ok id scoreOpt q,
           .write true (procFields f) :: c.events ++ [.write true (doneFields result q cfg.scoreThreshold)] ++ cleanupEvs)

/-- Model of `deleteGeminiFile` (server.js 157-168): the DELETE call's outcome
is caught inside the function and only logged, and the call site additionally
attaches `.catch(() => \x7b\x7d)`; nothing of the outcome escapes, which the
unit return type makes literal. -/
def deleteGeminiFile (_outcome : Except JsErr Unit) : Unit := ()

/-- The `analyses/{analysisId}` document as read back by `/uploadToVimeo`
(`doc.data()`): only the fields that handler consults, each possibly absent. -/
structure JobDoc where
  qualifiesForVimeo : Option Bool
  result : Option Json
  vimeoStatus : Option String
  vimeoLink : Option String
deriving Repr

/-- Body of the Vimeo create-video response as consumed by the code:
`data.upload.upload_link` and `data.uri`. -/
structure VimeoCreateData where
  uploadLink : String
  uri : String
deriving Repr

/-- Body of the Vimeo video-details response as consumed by the code:
`data.link` and `data.player_embed_url`. -/
structure VimeoDetailsData where
  link : Option String
  playerEmbed : Option String
deriving Repr

/-- Return value of `uploadToVimeoAPI`: `{ uri, link, videoId }`. -/
structure VimeoResult where
  uri : String
  link : Option String
  videoId : String
deriving Repr

/-- Oracle for the external world during one `/uploadToVimeo` request: the
ledger document read (`none` = `!doc.exists`), and the outcomes of the three
Vimeo API calls. -/
structure VEnv where
  doc : Option JobDoc
  create : Except JsErr VimeoCreateData
  patch : Except JsErr Unit
  details : Except JsErr VimeoDetailsData

/-- Model of the `||` chain on optional strings used for
`videoDetails.data.link || videoDetails.data.player_embed_url`: a falsy first
operand yields the second operand as-is. -/
def jsOrOpt (a b : Option String) : Option String :=
  match strTruthy a with
  | some s => some s
  | none => b

/-- Model of `uploadToVimeoAPI` (server.js 407-530): token check, create the
video entry, TUS-patch the payload, fetch the canonical details, and return
uri/link/videoId (`videoUri.split('/').pop()`).  The generated title and
description (server.js 414-471) flow only into the outbound create-request
body and are not modelled; the calls and their outcomes are. -/
def uploadToVimeoAPI (cfg : Cfg) (env : VEnv) : List Event × Except JsErr VimeoResult :=
  if cfg.vimeoConfigured = false then
    ([], .error (JsErr.plain "VIMEO_ACCESS_TOKEN no configurado"))
  else
    match env.create with
    | .error e => ([.vimeoCreateCall], .error e)
    | .ok c =>
      match env.patch with
      | .error e => ([.vimeoCreateCall, .vimeoPatchCall], .error e)
      | .ok _ =>
        match env.details with
        | .error e => ([.vimeoCreateCall, .vimeoPatchCall, .vimeoDetailsCall], .error e)
        | .ok d =>
          ([.vimeoCreateCall, .vimeoPatchCall, .vimeoDetailsCall],
           .ok ⟨c.uri, jsOrOpt d.link d.playerEmbed, (c.uri.splitOn "/").getLastD ""⟩)

/-- The 403 body of the eligibility rejection (server.js 629-633):
`El video no alcanzó el puntaje mínimo (${data.result?.score}% <
${SCORE_THRESHOLD}%)`. -/
def eligMsg (score : Option Json) (threshold : Rat) : String :=
  "El video no alcanzó el puntaje mínimo (" ++ jsTemplate score ++ "% < "
    ++ ratToJsString threshold ++ "%)"

/-- Fields of the `vimeoStatus: 'uploading'` update (server.js 644-647). -/
def uploadingFields : List (FieldName × FieldVal) :=
  [(.vimeoStatus, .s "uploading"), (.updatedAt, .serverTimestamp)]

/-- Fields of the `vimeoStatus: 'uploaded'` update (server.js 657-664).  A
missing link is written as the JavaScript `undefined` it is in the source. -/
def uploadedFields (r : VimeoResult) : List (FieldName × FieldVal) :=
  [(.vimeoStatus, .s "uploaded"), (.vimeoUri, .s r.uri),
   (.vimeoLink, match r.link with | some l => .s l | none => .undef),
   (.vimeoVideoId, .s r.videoId), (.vimeoUploadedAt, .serverTimestamp),
   (.updatedAt, .serverTimestamp)]

/-- Fields of the `vimeoStatus: 'error'` update (server.js 677-681), with
`vimeoError: e?.response?.data?.error || e.message`. -/
def vimeoErrFields (e : JsErr) : List (FieldName × FieldVal) :=
  [(.vimeoStatus, .s "error"), (.vimeoError, .s (jsOr (e.respError.getD "") e.message)),
   (.updatedAt, .serverTimestamp)]

/-- HTTP responses of `/uploadToVimeo`.  `conflict` is the 400 body of the
already-uploaded rejection, which carries the existing `vimeoLink`. -/
inductive VResp where
  | badRequest (error : String)
  | notFound (error : String)
  | forbidden (error : String)
  | conflict (error : String) (vimeoLink : Option String)
  | ok (vimeoLink : Option String) (vimeoVideoId : String)
  | serverError (error : String)
deriving Repr

/-- HTTP status code of each `/uploadToVimeo` response shape. -/
def VResp.status : VResp → Nat
  | .badRequest _ => 400
  | .notFound _ => 404
  | .forbidden _ => 403
  | .conflict _ _ => 400
  | .ok _ _ => 200
  | .serverError _ => 500

/-- Model of the `/uploadToVimeo` handler (server.js 611-688): validate, read
the ledger document; reject with 404 when it does not exist, with the 403
eligibility error when `qualifiesForVimeo` is falsy, with the 400 conflict
(carrying the stored `vimeoLink`) when `vimeoStatus` is already `uploaded`;
otherwise write `vimeoStatus: 'uploading'`, run the Vimeo upload, and write
either the `uploaded` fields or the `error` fields.  Document reads and
writes themselves are modelled as non-failing (the store is an external
collaborator, spec section 5). -/
def uploadToVimeo (cfg : Cfg) (env : VEnv) (req : AReq) : VResp × List Event :=
  match req.analysisId with
  | none => (.badRequest "analysisId requerido", [])
  | some _ =>
    match req.file with
    | none => (.badRequest "file requerido", [])
    | some _ =>
      match env.doc with
      | none => (.notFound "Análisis no encontrado", [])
      | some data =>
        if jsTruthyB data.qualifiesForVimeo = false then
          (.forbidden (eligMsg (jsOptChainProp data.result "score") cfg.scoreThreshold), [])
        else if data.vimeoStatus = some "uploaded" then
          (.conflict "Este video ya fue subido a Vimeo" data.vimeoLink, [])
        else
          match uploadToVimeoAPI cfg env with
          | (evs, .error e) =>
            (.serverError (jsOr (e.respError.getD "") (jsOr e.message "Error al subir a Vimeo")),
             .write false uploadingFields :: evs ++ [.write false (vimeoErrFields e)])
          | (evs, .ok r) =>
            (.ok r.link r.videoId,
             .write false uploadingFields :: evs ++ [.write false (uploadedFields r)])

/-- Last element of a candidate list (empty-list default never used by the
theorems below). -/
def lastOf : List String → String
  | [] => ""
  | [m] => m
  | _ :: m :: ms => lastOf (m :: ms)

lemma tryModelsAux_log_le {R : Type} (op : String → Except JsErr R) :
    ∀ (ms : List String) (last : Option JsErr),
      ∃ t, (tryModelsAux op ms last).2 ++ t = ms := by
  intro ms
  induction ms with
  | nil => intro last; exact ⟨[], rfl⟩
  | cons m ms ih =>
    intro last
    cases hop : op m with
    | ok r => exact ⟨ms, by simp [tryModelsAux, hop]⟩
    | error e =>
      obtain ⟨t, ht⟩ := ih (some e)
      exact ⟨t, by simp [tryModelsAux, hop, ht]⟩

lemma filter_bne_of_not_mem (x : String) (l : List String) (h : x ∉ l) :
    l.filter (fun m => m != x) = l := by
  induction l with
  | nil => rfl
  | cons a l ih =>
    have hax : (a != x) = true := bne_iff_ne.mpr fun hax => h (hax ▸ List.mem_cons_self a l)
    have hxl : x ∉ l := fun hm => h (List.mem_cons_of_mem a hm)
    simp [List.filter_cons, hax, ih hxl]

lemma tryModelsAux_cons_error {R : Type} (op : String → Except JsErr R) (m : String)
    (ms : List String) (last : Option JsErr) (e : JsErr) (h : op m = .error e) :
    tryModelsAux op (m :: ms) last
      = ((tryModelsAux op ms (some e)).1, m :: (tryModelsAux op ms (some e)).2) := by
  simp [tryModelsAux, h]

lemma tryModelsAux_all_fail {R : Type} (op : String → Except JsErr R) (err : String → JsErr) :
    ∀ (ms : List String), ms ≠ [] → ∀ (last : Option JsErr),
      (∀ m ∈ ms, op m = .error (err m)) →
      tryModelsAux op ms last = (.error (err (lastOf ms)), ms) := by
  intro ms
  induction ms with
  | nil => intro h; exact absurd rfl h
  | cons m ms ih =>
    intro _ last hop
    have hm : op m = .error (err m) := hop m (List.mem_cons_self m ms)
    cases ms with
    | nil => simp [tryModelsAux, hm, lastOf]
    | cons m2 ms2 =>
      have hrec := ih (by simp) (some (err m))
        (fun x hx => hop x (List.mem_cons_of_mem m hx))
      rw [tryModelsAux_cons_error op m (m2 :: ms2) last (err m) hm, hrec]
      simp [lastOf]

lemma tryModelsAux_first_success {R : Type} (op : String → Except JsErr R) (r : R) :
    ∀ (pre : List String) (m : String) (post : List String) (last : Option JsErr),
      (∀ x ∈ pre, ∃ e, op x = .error e) → op m = .ok r →
      tryModelsAux op (pre ++ m :: post) last = (.ok r, pre ++ [m]) := by
  intro pre
  induction pre with
  | nil =>
    intro m post last hpre hm
    simp [tryModelsAux, hm]
  | cons x pre ih =>
    intro m post last hpre hm
    obtain ⟨e, hx⟩ := hpre x (List.mem_cons_self x pre)
    rw [List.cons_append, tryModelsAux_cons_error op x (pre ++ m :: post) last e hx,
      ih m post (some e) (fun y hy => hpre y (List.mem_cons_of_mem x hy)) hm]
    simp

/-- C2: the Model-Fallback Invoker (`retryWithModels`) tries the candidates
strictly in list order, each at most once — its attempt log is an initial
segment of the candidate list; whenever the candidates split as a failing
prefix followed by a first succeeding candidate, exactly that prefix plus the
succeeding candidate are attempted and its result is returned; and in
particular for `[A, B, C]` where the operation fails on A and B and succeeds
on C, exactly 3 attempts A, B, C are made in order and C's result is
returned. -/
theorem retryWithModels_first_success :
    (∀ (R : Type) (op : String → Except JsErr R) (initial : String) (rest : List String),
      initial ∉ rest →
      ∃ t, (retryWithModels op initial (initial :: rest)).2 ++ t = initial :: rest) ∧
    (∀ (R : Type) (op : String → Except JsErr R) (initial : String) (rest : List String)
       (pre : List String) (m : String) (post : List String) (r : R),
      initial ∉ rest → initial :: rest = pre ++ m :: post →
      (∀ x ∈ pre, ∃ e, op x = .error e) → op m = .ok r →
      retryWithModels op initial (initial :: rest) = (.ok r, pre ++ [m])) ∧
    (∀ (R : Type) (op : String → Except JsErr R) (A B C : String) (eA eB : JsErr) (r : R),
      A ≠ B → A ≠ C →
      op A = .error eA → op B = .error eB → op C = .ok r →
      retryWithModels op A [A, B, C] = (.ok r, [A, B, C])) := by
  refine ⟨?_, ?_, ?_⟩
  · intro R op initial rest hnm
    have hf : (initial :: rest).filter (fun m => m != initial) = rest := by
      simp [List.filter_cons, filter_bne_of_not_mem initial rest hnm]
    rw [retryWithModels, hf]
    exact tryModelsAux_log_le op (initial :: rest) none
  · intro R op initial rest pre m post r hnm hsplit hpre hm
    have hf : (initial :: rest).filter (fun x => x != initial) = rest := by
      simp [List.filter_cons, filter_bne_of_not_mem initial rest hnm]
    rw [retryWithModels, hf, hsplit]
    exact tryModelsAux_first_success op r pre m post none hpre hm
  · intro R op A B C eA eB r hAB hAC hA hB hC
    have e2 : (B != A) = true := bne_iff_ne.mpr (Ne.symm hAB)
    have e3 : (C != A) = true := bne_iff_ne.mpr (Ne.symm hAC)
    simp [retryWithModels, List.filter_cons, e2, e3, tryModelsAux, hA, hB, hC]

/-- Concrete instance for C2: candidates a, b, c where only c succeeds. -/
def opC2 : String → Except JsErr Nat :=
  fun m => if m = "c" then .ok 7 else .error (JsErr.plain m)

theorem retryWithModels_first_success_witness :
    retryWithModels opC2 "a" ["a", "b", "c"] = (.ok 7, ["a", "b", "c"]) :=
  retryWithModels_first_success.2.2 Nat opC2 "a" "b" "c" (JsErr.plain "a") (JsErr.plain "b") 7
    (by decide) (by decide) rfl rfl rfl

/-- C3: when the operation fails on every candidate, `retryWithModels` throws
the error recorded for the last attempted candidate (not the first), its
attempt log is exactly the candidate list in order, and no candidate is
attempted more than once (the log has no duplicates). -/
theorem retryWithModels_all_fail :
    ∀ (R : Type) (op : String → Except JsErr R) (initial : String) (rest : List String)
      (err : String → JsErr),
      (∀ m ∈ initial :: rest, op m = .error (err m)) →
      initial ∉ rest → rest.Nodup →
      retryWithModels op initial (initial :: rest)
          = (.error (err (lastOf (initial :: rest))), initial :: rest)
        ∧ ((retryWithModels op initial (initial :: rest)).2).Nodup := by
  intro R op initial rest err hop hnm hnd
  have hf : (initial :: rest).filter (fun m => m != initial) = rest := by
    simp [List.filter_cons, filter_bne_of_not_mem initial rest hnm]
  have heq : retryWithModels op initial (initial :: rest)
      = (.error (err (lastOf (initial :: rest))), initial :: rest) := by
    rw [retryWithModels, hf]
    exact tryModelsAux_all_fail op err (initial :: rest) (by simp) none hop
  refine ⟨heq, ?_⟩
  rw [heq]
  exact List.nodup_cons.mpr ⟨hnm, hnd⟩

/-- Concrete instance for C3: every candidate fails with its own error. -/
def opC3 : String → Except JsErr Nat := fun m => .error (JsErr.plain m)

theorem retryWithModels_all_fail_witness :
    retryWithModels opC3 "a" ["a", "b", "c"]
        = (.error (JsErr.plain (lastOf ["a", "b", "c"])), ["a", "b", "c"])
      ∧ ((retryWithModels opC3 "a" ["a", "b", "c"]).2).Nodup :=
  retryWithModels_all_fail Nat opC3 "a" ["b", "c"] (fun m => JsErr.plain m)
    (fun _ _ => rfl) (by decide) (by decide)

lemma ledgerWrites_cons_write (m : Bool) (fs : List (FieldName × FieldVal)) (tr : List Event) :
    ledgerWrites (.write m fs :: tr) = (m, fs) :: ledgerWrites tr := by
  simp [ledgerWrites]

lemma ledgerWrites_append (a b : List Event) :
    ledgerWrites (a ++ b) = ledgerWrites a ++ ledgerWrites b := by
  simp [ledgerWrites]

lemma ledgerWrites_replicate_poll (n : Nat) :
    ledgerWrites (List.replicate n Event.pollCall) = [] := by
  refine List.filterMap_eq_nil.mpr ?_
  intro a ha
  rw [List.eq_of_mem_replicate ha]

lemma ledgerWrites_map_model (l : List String) :
    ledgerWrites (l.map Event.modelCall) = [] := by
  refine List.filterMap_eq_nil_iff.mpr ?_
  intro a ha
  obtain ⟨m, _, rfl⟩ := List.mem_map.mp ha
  rfl

lemma cleanupCount_append (a b : List Event) :
    cleanupCount (a ++ b) = cleanupCount a + cleanupCount b := by
  simp [cleanupCount, List.countP_append]

lemma cleanupCount_replicate_poll (n : Nat) :
    cleanupCount (List.replicate n Event.pollCall) = 0 := by
  refine List.countP_eq_zero.mpr ?_
  intro a ha
  rw [List.eq_of_mem_replicate ha]
  simp

lemma cleanupCount_map_model (l : List String) :
    cleanupCount (l.map Event.modelCall) = 0 := by
  refine List.countP_eq_zero.mpr ?_
  intro a ha
  obtain ⟨m, _, rfl⟩ := List.mem_map.mp ha
  simp

lemma uploadToGemini_init_error (env : AEnv) (e : JsErr) (h : env.stageInit = .error e) :
    uploadToGemini env = ([.stageInitCall], .error e) := by
  unfold uploadToGemini; rw [h]

lemma uploadToGemini_init_none (env : AEnv) (h : env.stageInit = .ok none) :
    uploadToGemini env = ([.stageInitCall], .error (JsErr.plain "No se obtuvo upload URL de Gemini")) := by
  unfold uploadToGemini; rw [h]

lemma uploadToGemini_fin_error (env : AEnv) (u : String) (e : JsErr)
    (h : env.stageInit = .ok (some u)) (h2 : env.stageFinalize = .error e) :
    uploadToGemini env = ([.stageInitCall, .stageUploadCall], .error e) := by
  unfold uploadToGemini; rw [h, h2]

lemma uploadToGemini_ok (env : AEnv) (u : String) (d : UploadedData)
    (h : env.stageInit = .ok (some u)) (h2 : env.stageFinalize = .ok d) :
    uploadToGemini env = ([.stageInitCall, .stageUploadCall], .ok d) := by
  unfold uploadToGemini; rw [h, h2]

lemma analyzeCore_upload_error (cfg : Cfg) (env : AEnv) (evs : List Event) (e : JsErr)
    (h : uploadToGemini env = (evs, .error e)) :
    analyzeCore cfg env = ⟨evs, none, .error e⟩ := by
  unfold analyzeCore; rw [h]

lemma analyzeCore_extract_none (cfg : Cfg) (env : AEnv) (evs : List Event) (up : UploadedData)
    (h : uploadToGemini env = (evs, .ok up)) (h2 : extractGeminiFileRef (some up) = none) :
    analyzeCore cfg env
      = ⟨evs, some up, .error (JsErr.plain "No se obtuvo referencia del archivo (name/uri) de Gemini")⟩ := by
  unfold analyzeCore; rw [h]; simp only [h2]

lemma analyzeCore_wait_error (cfg : Cfg) (env : AEnv) (evs : List Event) (up : UploadedData)
    (fr : String) (n : Nat) (e : JsErr)
    (h : uploadToGemini env = (evs, .ok up)) (h2 : extractGeminiFileRef (some up) = some fr)
    (h3 : waitGeminiFileReady env 45000 1200 = (n, .error e)) :
    analyzeCore cfg env = ⟨evs ++ List.replicate n .pollCall, some up, .error e⟩ := by
  unfold analyzeCore; rw [h]; simp only [h2, h3]

lemma analyzeCore_wait_ok (cfg : Cfg) (env : AEnv) (evs : List Event) (up : UploadedData)
    (fr : String) (n : Nat)
    (h : uploadToGemini env = (evs, .ok up)) (h2 : extractGeminiFileRef (some up) = some fr)
    (h3 : waitGeminiFileReady env 45000 1200 = (n, .ok ())) :
    analyzeCore cfg env
      = ⟨evs ++ List.replicate n .pollCall
           ++ (geminiAnalyze cfg env ((strTruthy (up.file.bind GFile.uri)).getD
                ("https://generativelanguage.googleapis.com/v1beta/" ++ fr))).2.map Event.modelCall,
         some up,
         (geminiAnalyze cfg env ((strTruthy (up.file.bind GFile.uri)).getD
            ("https://generativelanguage.googleapis.com/v1beta/" ++ fr))).1⟩ := by
  unfold analyzeCore; rw [h]; simp only [h2, h3]

lemma analyzeVideo_outcome_error (cfg : Cfg) (env : AEnv) (id : String) (f : FilePart)
    (e : JsErr) (h : (analyzeCore cfg env).outcome = .error e) :
    analyzeVideo cfg env ⟨some id, some f⟩
      = (.serverError (jsOr e.message "Internal error"),
         .write true (procFields f) :: (analyzeCore cfg env).events
           ++ [.write true (errorFields e)] ++ cleanupEvents cfg env) := by
  unfold analyzeVideo; simp only [h]

lemma analyzeVideo_outcome_ok_scoreErr (cfg : Cfg) (env : AEnv) (id : String) (f : FilePart)
    (result : Json) (e : JsErr) (h : (analyzeCore cfg env).outcome = .ok result)
    (h2 : jsGetProp result "score" = .error e) :
    analyzeVideo cfg env ⟨some id, some f⟩
      = (.serverError (jsOr e.message "Internal error"),
         .write true (procFields f) :: (analyzeCore cfg env).events
           ++ [.write true (errorFields e)] ++ cleanupEvents cfg env) := by
  unfold analyzeVideo; simp only [h, h2]

lemma analyzeVideo_outcome_ok (cfg : Cfg) (env : AEnv) (id : String) (f : FilePart)
    (result : Json) (scoreOpt : Option Json) (h : (analyzeCore cfg env).outcome = .ok result)
    (h2 : jsGetProp result "score" = .ok scoreOpt) :
    analyzeVideo cfg env ⟨some id, some f⟩
      = (.ok id scoreOpt (jsGe scoreOpt cfg.scoreThreshold),
         .write true (procFields f) :: (analyzeCore cfg env).events
           ++ [.write true (doneFields result (jsGe scoreOpt cfg.scoreThreshold) cfg.scoreThreshold)]
           ++ cleanupEvents cfg env) := by
  unfold analyzeVideo; simp only [h, h2]

lemma ledgerWrites_nil : ledgerWrites [] = [] := rfl

lemma ledgerWrites_single_write (m : Bool) (fs : List (FieldName × FieldVal)) :
    ledgerWrites [Event.write m fs] = [(m, fs)] := rfl

lemma ledgerWrites_cleanup_aux (o : Except JsErr Unit) (x : Option String) :
    ledgerWrites (match x with | some _ => [Event.deleteCall o] | none => []) = [] := by
  cases x <;> rfl

lemma ledgerWrites_cleanupEvents (cfg : Cfg) (env : AEnv) :
    ledgerWrites (cleanupEvents cfg env) = [] :=
  ledgerWrites_cleanup_aux env.deleteOutcome (extractGeminiFileRef (analyzeCore cfg env).uploaded)

lemma cleanupCount_cleanup_aux (o : Except JsErr Unit) (x : Option String) :
    cleanupCount (match x with | some _ => [Event.deleteCall o] | none => [])
      = if x.isSome then 1 else 0 := by
  cases x <;> rfl

lemma cleanupCount_cleanupEvents (cfg : Cfg) (env : AEnv) :
    cleanupCount (cleanupEvents cfg env)
      = if (extractGeminiFileRef (analyzeCore cfg env).uploaded).isSome then 1 else 0 :=
  cleanupCount_cleanup_aux env.deleteOutcome (extractGeminiFileRef (analyzeCore cfg env).uploaded)

lemma analyzeCore_events_clean (cfg : Cfg) (env : AEnv) :
    ledgerWrites (analyzeCore cfg env).events = []
      ∧ cleanupCount (analyzeCore cfg env).events = 0 := by
  cases hsi : env.stageInit with
  | error e =>
    rw [analyzeCore_upload_error cfg env _ e (uploadToGemini_init_error env e hsi)]
    exact ⟨rfl, rfl⟩
  | ok ho =>
    cases ho with
    | none =>
      rw [analyzeCore_upload_error cfg env _ _ (uploadToGemini_init_none env hsi)]
      exact ⟨rfl, rfl⟩
    | some u =>
      cases hsf : env.stageFinalize with
      | error e =>
        rw [analyzeCore_upload_error cfg env _ e (uploadToGemini_fin_error env u e hsi hsf)]
        exact ⟨rfl, rfl⟩
      | ok d =>
        have hup := uploadToGemini_ok env u d hsi hsf
        cases hext : extractGeminiFileRef (some d) with
        | none =>
          rw [analyzeCore_extract_none cfg env _ d hup hext]
          exact ⟨rfl, rfl⟩
        | some fr =>
          rcases hw : waitGeminiFileReady env 45000 1200 with ⟨n, r⟩
          cases r with
          | error e =>
            rw [analyzeCore_wait_error cfg env _ d fr n e hup hext hw]
            refine ⟨?_, ?_⟩
            · show ledgerWrites ([Event.stageInitCall, Event.stageUploadCall]
                ++ List.replicate n Event.pollCall) = []
              rw [ledgerWrites_append, ledgerWrites_replicate_poll]
              rfl
            · show cleanupCount ([Event.stageInitCall, Event.stageUploadCall]
                ++ List.replicate n Event.pollCall) = 0
              rw [cleanupCount_append, cleanupCount_replicate_poll]
              rfl
          | ok unitv =>
            cases unitv
            rw [analyzeCore_wait_ok cfg env _ d fr n hup hext hw]
            refine ⟨?_, ?_⟩
            · show ledgerWrites ([Event.stageInitCall, Event.stageUploadCall]
                ++ List.replicate n Event.pollCall
                ++ (geminiAnalyze cfg env ((strTruthy (d.file.bind GFile.uri)).getD
                     ("https://generativelanguage.googleapis.com/v1beta/" ++ fr))).2.map Event.modelCall) = []
              rw [ledgerWrites_append, ledgerWrites_append, ledgerWrites_replicate_poll,
                ledgerWrites_map_model]
              rfl
            · show cleanupCount ([Event.stageInitCall, Event.stageUploadCall]
                ++ List.replicate n Event.pollCall
                ++ (geminiAnalyze cfg env ((strTruthy (d.file.bind GFile.uri)).getD
                     ("https://generativelanguage.googleapis.com/v1beta/" ++ fr))).2.map Event.modelCall) = 0
              rw [cleanupCount_append, cleanupCount_append, cleanupCount_replicate_poll,
                cleanupCount_map_model]
              rfl

lemma cleanupCount_cons_write (m : Bool) (fs : List (FieldName × FieldVal)) (tr : List Event) :
    cleanupCount (.write m fs :: tr) = cleanupCount tr := by
  simp [cleanupCount]

lemma cleanupCount_single_write (m : Bool) (fs : List (FieldName × FieldVal)) :
    cleanupCount [Event.write m fs] = 0 := rfl

/-- C1: for every accepted analysis job (analysisId and file present) and
every behavior of the external providers, the handler's very first observable
event is the merge write of the `processing` ledger state — before any
pipeline work on the payload — and the only other ledger write of the request
is a single terminal one whose `status` field is either `done` or `error`:
the job never skips `processing` and never receives two terminal writes. -/
theorem analyze_ledger_lifecycle (cfg : Cfg) (env : AEnv) (id : String) (f : FilePart) :
    ((analyzeVideo cfg env ⟨some id, some f⟩).2).head? = some (.write true (procFields f)) ∧
    ∃ w, ledgerWrites (analyzeVideo cfg env ⟨some id, some f⟩).2
        = [(true, procFields f), (true, w)]
      ∧ (fieldOf w .status = some (.s "done") ∨ fieldOf w .status = some (.s "error")) := by
  obtain ⟨hclean, -⟩ := analyzeCore_events_clean cfg env
  rcases ho : (analyzeCore cfg env).outcome with e | result
  · rw [analyzeVideo_outcome_error cfg env id f e ho]
    refine ⟨by simp, errorFields e, ?_, Or.inr rfl⟩
    rw [ledgerWrites_append, ledgerWrites_append, ledgerWrites_cons_write, hclean,
      ledgerWrites_single_write, ledgerWrites_cleanupEvents]
    simp
  · rcases hs : jsGetProp result "score" with e | scoreOpt
    · rw [analyzeVideo_outcome_ok_scoreErr cfg env id f result e ho hs]
      refine ⟨by simp, errorFields e, ?_, Or.inr rfl⟩
      rw [ledgerWrites_append, ledgerWrites_append, ledgerWrites_cons_write, hclean,
        ledgerWrites_single_write, ledgerWrites_cleanupEvents]
      simp
    · rw [analyzeVideo_outcome_ok cfg env id f result scoreOpt ho hs]
      refine ⟨by simp, doneFields result (jsGe scoreOpt cfg.scoreThreshold) cfg.scoreThreshold,
        ?_, Or.inl rfl⟩
      rw [ledgerWrites_append, ledgerWrites_append, ledgerWrites_cons_write, hclean,
        ledgerWrites_single_write, ledgerWrites_cleanupEvents]
      simp

lemma upd_stageInit (env : AEnv) (o : Except JsErr Unit) :
    ({ env with deleteOutcome := o } : AEnv).stageInit = env.stageInit := rfl

lemma upd_stageFinalize (env : AEnv) (o : Except JsErr Unit) :
    ({ env with deleteOutcome := o } : AEnv).stageFinalize = env.stageFinalize := rfl

lemma upd_poll (env : AEnv) (o : Except JsErr Unit) :
    ({ env with deleteOutcome := o } : AEnv).poll = env.poll := rfl

lemma upd_pollTime (env : AEnv) (o : Except JsErr Unit) :
    ({ env with deleteOutcome := o } : AEnv).pollTime = env.pollTime := rfl

lemma upd_genContent (env : AEnv) (o : Except JsErr Unit) :
    ({ env with deleteOutcome := o } : AEnv).genContent = env.genContent := rfl

lemma uploadToGemini_deleteOutcome (env : AEnv) (o : Except JsErr Unit) :
    uploadToGemini { env with deleteOutcome := o } = uploadToGemini env := by
  unfold uploadToGemini
  rw [upd_stageInit, upd_stageFinalize]

lemma waitGeminiFileReady_deleteOutcome (env : AEnv) (o : Except JsErr Unit) (t i : Nat) :
    waitGeminiFileReady { env with deleteOutcome := o } t i = waitGeminiFileReady env t i := by
  unfold waitGeminiFileReady
  rw [upd_poll, upd_pollTime]

lemma geminiAnalyze_deleteOutcome (cfg : Cfg) (env : AEnv) (o : Except JsErr Unit) (uri : String) :
    geminiAnalyze cfg { env with deleteOutcome := o } uri = geminiAnalyze cfg env uri := by
  unfold geminiAnalyze
  rw [upd_genContent]

lemma analyzeCore_deleteOutcome (cfg : Cfg) (env : AEnv) (o : Except JsErr Unit) :
    analyzeCore cfg { env with deleteOutcome := o } = analyzeCore cfg env := by
  unfold analyzeCore
  simp only [uploadToGemini_deleteOutcome, waitGeminiFileReady_deleteOutcome,
    geminiAnalyze_deleteOutcome]

lemma cleanup_guard_aux (cfg : Cfg) (env : AEnv) (tr : List Event)
    (wX : List (FieldName × FieldVal)) (f : FilePart)
    (htr : tr = .write true (procFields f) :: (analyzeCore cfg env).events
      ++ [.write true wX] ++ cleanupEvents cfg env) :
    cleanupCount tr
        = (if (extractGeminiFileRef (analyzeCore cfg env).uploaded).isSome then 1 else 0)
      ∧ ∃ pre, tr = pre ++ cleanupEvents cfg env ∧ cleanupCount pre = 0
          ∧ ledgerWrites pre = ledgerWrites tr := by
  obtain ⟨hclean1, hclean2⟩ := analyzeCore_events_clean cfg env
  subst htr
  refine ⟨?_, .write true (procFields f) :: (analyzeCore cfg env).events ++ [.write true wX],
    rfl, ?_, ?_⟩
  · rw [cleanupCount_append, cleanupCount_append, cleanupCount_cons_write, hclean2,
      cleanupCount_single_write, cleanupCount_cleanupEvents]
    simp
  · rw [cleanupCount_append, cleanupCount_cons_write, hclean2, cleanupCount_single_write]
  · rw [ledgerWrites_append, ledgerWrites_append, ledgerWrites_append,
      ledgerWrites_cleanupEvents]
    simp

lemma analyzeVideo_deleteOutcome_frame (cfg : Cfg) (env : AEnv) (o : Except JsErr Unit)
    (id : String) (f : FilePart) :
    ledgerWrites (analyzeVideo cfg { env with deleteOutcome := o } ⟨some id, some f⟩).2
        = ledgerWrites (analyzeVideo cfg env ⟨some id, some f⟩).2
      ∧ (analyzeVideo cfg { env with deleteOutcome := o } ⟨some id, some f⟩).1
        = (analyzeVideo cfg env ⟨some id, some f⟩).1 := by
  rcases ho : (analyzeCore cfg env).outcome with e | result
  · have ho' : (analyzeCore cfg { env with deleteOutcome := o }).outcome = .error e := by
      rw [analyzeCore_deleteOutcome]; exact ho
    rw [analyzeVideo_outcome_error cfg { env with deleteOutcome := o } id f e ho',
      analyzeVideo_outcome_error cfg env id f e ho]
    refine ⟨?_, rfl⟩
    rw [analyzeCore_deleteOutcome cfg env o]
    simp only [ledgerWrites_append, ledgerWrites_cleanupEvents, List.append_nil]
  · have ho' : (analyzeCore cfg { env with deleteOutcome := o }).outcome = .ok result := by
      rw [analyzeCore_deleteOutcome]; exact ho
    rcases hs : jsGetProp result "score" with e | scoreOpt
    · rw [analyzeVideo_outcome_ok_scoreErr cfg { env with deleteOutcome := o } id f result e ho' hs,
        analyzeVideo_outcome_ok_scoreErr cfg env id f result e ho hs]
      refine ⟨?_, rfl⟩
      rw [analyzeCore_deleteOutcome cfg env o]
      simp only [ledgerWrites_append, ledgerWrites_cleanupEvents, List.append_nil]
    · rw [analyzeVideo_outcome_ok cfg { env with deleteOutcome := o } id f result scoreOpt ho' hs,
        analyzeVideo_outcome_ok cfg env id f result scoreOpt ho hs]
      refine ⟨?_, rfl⟩
      rw [analyzeCore_deleteOutcome cfg env o]
      simp only [ledgerWrites_append, ledgerWrites_cleanupEvents, List.append_nil]

/-- C7: cleanup of the staging descriptor is attempted exactly once per job
whenever a usable descriptor reference was obtained (and is a no-op
otherwise), on every exit path — done or error; every cleanup attempt comes
after all ledger writes of the request; and the delete outcome never changes
the ledger writes or the response returned to the caller. -/
theorem cleanup_guard (cfg : Cfg) (env : AEnv) (id : String) (f : FilePart) :
    (cleanupCount (analyzeVideo cfg env ⟨some id, some f⟩).2
        = if (extractGeminiFileRef (analyzeCore cfg env).uploaded).isSome then 1 else 0)
      ∧ (∃ pre, (analyzeVideo cfg env ⟨some id, some f⟩).2 = pre ++ cleanupEvents cfg env
          ∧ cleanupCount pre = 0
          ∧ ledgerWrites pre = ledgerWrites (analyzeVideo cfg env ⟨some id, some f⟩).2)
      ∧ (∀ o : Except JsErr Unit,
          ledgerWrites (analyzeVideo cfg { env with deleteOutcome := o } ⟨some id, some f⟩).2
              = ledgerWrites (analyzeVideo cfg env ⟨some id, some f⟩).2
            ∧ (analyzeVideo cfg { env with deleteOutcome := o } ⟨some id, some f⟩).1
              = (analyzeVideo cfg env ⟨some id, some f⟩).1) := by
  have main : cleanupCount (analyzeVideo cfg env ⟨some id, some f⟩).2
      = (if (extractGeminiFileRef (analyzeCore cfg env).uploaded).isSome then 1 else 0)
    ∧ ∃ pre, (analyzeVideo cfg env ⟨some id, some f⟩).2 = pre ++ cleanupEvents cfg env
        ∧ cleanupCount pre = 0
        ∧ ledgerWrites pre = ledgerWrites (analyzeVideo cfg env ⟨some id, some f⟩).2 := by
    rcases ho : (analyzeCore cfg env).outcome with e | result
    · exact cleanup_guard_aux cfg env _ (errorFields e) f
        (by rw [analyzeVideo_outcome_error cfg env id f e ho])
    · rcases hs : jsGetProp result "score" with e | scoreOpt
      · exact cleanup_guard_aux cfg env _ (errorFields e) f
          (by rw [analyzeVideo_outcome_ok_scoreErr cfg env id f result e ho hs])
      · exact cleanup_guard_aux cfg env _
          (doneFields result (jsGe scoreOpt cfg.scoreThreshold) cfg.scoreThreshold) f
          (by rw [analyzeVideo_outcome_ok cfg env id f result scoreOpt ho hs])
  exact ⟨main.1, main.2, fun o => analyzeVideo_deleteOutcome_frame cfg env o id f⟩

/-- C4: every job that completes the analysis phase with status=done records
`qualifiesForVimeo` equal to the comparison `score >= SCORE_THRESHOLD`
(JavaScript `>=`) and stores the threshold snapshot alongside; on a numeric
score the comparison is exactly `score ≥ threshold` for every score and
threshold value, and an absent score compares false. -/
theorem qualifies_eq_score_ge_threshold :
    (∀ (cfg : Cfg) (env : AEnv) (id : String) (f : FilePart) (result : Json)
       (scoreOpt : Option Json),
      (analyzeCore cfg env).outcome = .ok result →
      jsGetProp result "score" = .ok scoreOpt →
      ledgerWrites (analyzeVideo cfg env ⟨some id, some f⟩).2
          = [(true, procFields f),
             (true, doneFields result (jsGe scoreOpt cfg.scoreThreshold) cfg.scoreThreshold)]
        ∧ fieldOf (doneFields result (jsGe scoreOpt cfg.scoreThreshold) cfg.scoreThreshold)
            .qualifiesForVimeo = some (.b (jsGe scoreOpt cfg.scoreThreshold))
        ∧ fieldOf (doneFields result (jsGe scoreOpt cfg.scoreThreshold) cfg.scoreThreshold)
            .scoreThreshold = some (.num cfg.scoreThreshold)) ∧
    (∀ (s t : Rat), jsGe (some (.num s)) t = decide (s ≥ t)) ∧
    (∀ t : Rat, jsGe none t = false) := by
  refine ⟨?_, fun s t => rfl, fun t => rfl⟩
  intro cfg env id f result scoreOpt ho hs
  obtain ⟨hclean, -⟩ := analyzeCore_events_clean cfg env
  rw [analyzeVideo_outcome_ok cfg env id f result scoreOpt ho hs]
  refine ⟨?_, rfl, rfl⟩
  rw [ledgerWrites_append, ledgerWrites_append, ledgerWrites_cons_write, hclean,
    ledgerWrites_single_write, ledgerWrites_cleanupEvents]
  simp

/-- The file part used by the concrete witnesses. -/
def fileC : FilePart := ⟨"clase.mp4", 1000, "video/mp4"⟩

/-- Environment in which staging succeeds, the file is immediately ACTIVE and
the first model returns the JSON text with score 85. -/
def envC4 : AEnv :=
  ⟨.ok (some "https://upload.example/session"),
   .ok ⟨some ⟨some "files/abc123",
        some "https://generativelanguage.googleapis.com/v1beta/files/abc123"⟩⟩,
   fun _ => .ok (some "ACTIVE"), fun _ => 0,
   fun _ _ => .ok ⟨some "\x7b\"score\": 85\x7d"⟩, .ok ()⟩

set_option maxHeartbeats 2000000 in
lemma envC4_outcome :
    (analyzeCore defaultCfg envC4).outcome = .ok (Json.obj [("score", Json.num 85)]) := by
  have hop : uploadToGemini envC4
      = ([.stageInitCall, .stageUploadCall],
         .ok ⟨some ⟨some "files/abc123",
              some "https://generativelanguage.googleapis.com/v1beta/files/abc123"⟩⟩) :=
    uploadToGemini_ok envC4 "https://upload.example/session" _ rfl rfl
  have hw : waitGeminiFileReady envC4 45000 1200 = (1, .ok ()) := rfl
  have hext : extractGeminiFileRef (some ⟨some ⟨some "files/abc123",
      some "https://generativelanguage.googleapis.com/v1beta/files/abc123"⟩⟩) = some "files/abc123" := rfl
  rw [analyzeCore_wait_ok defaultCfg envC4 _ _ "files/abc123" 1 hop hext hw]
  rfl

theorem qualifies_eq_score_ge_threshold_witness :
    (analyzeCore defaultCfg envC4).outcome = .ok (Json.obj [("score", Json.num 85)])
      ∧ jsGetProp (Json.obj [("score", Json.num 85)]) "score" = .ok (some (Json.num 85))
      ∧ ledgerWrites (analyzeVideo defaultCfg envC4 ⟨some "v1", some fileC⟩).2
          = [(true, procFields fileC),
             (true, doneFields (Json.obj [("score", Json.num 85)])
               (jsGe (some (Json.num 85)) defaultCfg.scoreThreshold) defaultCfg.scoreThreshold)] :=
  ⟨envC4_outcome, rfl,
   (qualifies_eq_score_ge_threshold.1 defaultCfg envC4 "v1" fileC
     (Json.obj [("score", Json.num 85)]) (some (Json.num 85)) envC4_outcome rfl).1⟩

lemma jsOr_ne (a b : String) (h : a ≠ "") : jsOr a b = a := if_neg h

lemma jsOr_empty (b : String) : jsOr "" b = b := rfl

lemma timeoutMsg_ne_empty (st : Option String) : timeoutMsg st ≠ "" := by
  intro h
  have hl := congrArg String.length h
  simp only [timeoutMsg, String.length_append] at hl
  have hp : 0 < ("El archivo en Gemini no quedó listo (estado: " : String).length := by decide
  have hb : (")" : String).length = 1 := rfl
  have hc : ("" : String).length = 0 := rfl
  omega

lemma ledgerMessage_plain (m : String) (h : m ≠ "") :
    ledgerMessage (JsErr.plain m) = m := by
  simp [ledgerMessage, JsErr.plain, jsOr, h]

lemma waitLoop_timeout (poll : Nat → Except JsErr (Option String)) (pollTime : Nat → Nat)
    (timeoutMs intervalMs : Nat) (st : Nat → Option String)
    (hpoll : ∀ j, poll j = .ok (st j)) (hact : ∀ j, st j ≠ some "ACTIVE")
    (hint : 1 ≤ intervalMs) :
    ∀ fuel k elapsed,
      timeoutMs + 1 + intervalMs ≤ elapsed + fuel * intervalMs →
      elapsed ≤ timeoutMs + intervalMs →
      ∃ j, (waitLoop poll pollTime timeoutMs intervalMs fuel k elapsed).2
        = .error (JsErr.plain (timeoutMsg (st j))) := by
  intro fuel
  induction fuel with
  | zero =>
    intro k elapsed h1 h2
    exfalso
    omega
  | succ fuel ih =>
    intro k elapsed h1 h2
    rw [Nat.succ_mul] at h1
    simp only [waitLoop, hpoll k]
    rw [if_neg (hact k)]
    by_cases hto : timeoutMs < elapsed + pollTime k
    · rw [if_pos hto]
      exact ⟨k, rfl⟩
    · rw [if_neg hto]
      have hb1 : timeoutMs + 1 + intervalMs
          ≤ elapsed + pollTime k + intervalMs + fuel * intervalMs := by omega
      have hb2 : elapsed + pollTime k + intervalMs ≤ timeoutMs + intervalMs := by omega
      exact ih (k + 1) (elapsed + pollTime k + intervalMs) hb1 hb2

lemma waitGeminiFileReady_timeout (env : AEnv) (st : Nat → Option String)
    (hpoll : ∀ j, env.poll j = .ok (st j)) (hact : ∀ j, st j ≠ some "ACTIVE") :
    ∃ j, (waitGeminiFileReady env 45000 1200).2
      = .error (JsErr.plain (timeoutMsg (st j))) := by
  unfold waitGeminiFileReady
  exact waitLoop_timeout env.poll env.pollTime 45000 1200 st hpoll hact (by omega)
    45002 0 0 (by norm_num) (by omega)

/-- C6: when the staged descriptor never reports ACTIVE (the fetches succeed
but the state stays non-active), the readiness wait of the pipeline — fixed
45000 ms deadline polled every 1200 ms starting immediately — fails with the
timeout error whose message carries the observed state at the failing poll
(`desconocido` when none was observed), and the job's ledger ends with
exactly that message under status=error while the caller receives the 500
response carrying it. -/
theorem readiness_timeout_marks_error (cfg : Cfg) (env : AEnv) (id : String) (f : FilePart)
    (u : String) (up : UploadedData) (fr : String) (st : Nat → Option String)
    (hinit : env.stageInit = .ok (some u))
    (hfin : env.stageFinalize = .ok up)
    (hext : extractGeminiFileRef (some up) = some fr)
    (hpoll : ∀ j, env.poll j = .ok (st j))
    (hact : ∀ j, st j ≠ some "ACTIVE") :
    ∃ j, ledgerWrites (analyzeVideo cfg env ⟨some id, some f⟩).2
        = [(true, procFields f),
           (true, [(.status, .s "error"), (.error, .s (timeoutMsg (st j))),
                   (.updatedAt, .serverTimestamp)])]
      ∧ (analyzeVideo cfg env ⟨some id, some f⟩).1 = .serverError (timeoutMsg (st j)) := by
  obtain ⟨j, hj⟩ := waitGeminiFileReady_timeout env st hpoll hact
  rcases hw : waitGeminiFileReady env 45000 1200 with ⟨n, r⟩
  rw [hw] at hj
  simp only at hj
  subst hj
  have ho : (analyzeCore cfg env).outcome = .error (JsErr.plain (timeoutMsg (st j))) := by
    rw [analyzeCore_wait_error cfg env _ up fr n (JsErr.plain (timeoutMsg (st j)))
      (uploadToGemini_ok env u up hinit hfin) hext hw]
  refine ⟨j, ?_, ?_⟩
  · rw [analyzeVideo_outcome_error cfg env id f _ ho]
    obtain ⟨hclean, -⟩ := analyzeCore_events_clean cfg env
    rw [ledgerWrites_append, ledgerWrites_append, ledgerWrites_cons_write, hclean,
      ledgerWrites_single_write, ledgerWrites_cleanupEvents]
    simp [errorFields, ledgerMessage_plain _ (timeoutMsg_ne_empty (st j))]
  · rw [analyzeVideo_outcome_error cfg env id f _ ho]
    simp [JsErr.plain, jsOr_ne _ _ (timeoutMsg_ne_empty (st j))]

/-- Environment in which staging succeeds but the descriptor stays PENDING at
every poll. -/
def envC6 : AEnv :=
  ⟨.ok (some "https://upload.example/session"),
   .ok ⟨some ⟨some "files/pend1", none⟩⟩,
   fun _ => .ok (some "PENDING"), fun _ => 0,
   fun _ _ => .ok ⟨none⟩, .ok ()⟩

theorem readiness_timeout_marks_error_witness :
    ∃ j : Nat, ledgerWrites (analyzeVideo defaultCfg envC6 ⟨some "v2", some fileC⟩).2
        = [(true, procFields fileC),
           (true, [(.status, .s "error"), (.error, .s (timeoutMsg (some "PENDING"))),
                   (.updatedAt, .serverTimestamp)])]
      ∧ (analyzeVideo defaultCfg envC6 ⟨some "v2", some fileC⟩).1
          = .serverError (timeoutMsg (some "PENDING")) := by
  have hne : (some "PENDING" : Option String) ≠ some "ACTIVE" := by decide
  exact readiness_timeout_marks_error defaultCfg envC6 "v2" fileC
    "https://upload.example/session" ⟨some ⟨some "files/pend1", none⟩⟩ "files/pend1"
    (fun _ => some "PENDING") rfl rfl rfl (fun _ => rfl) (fun _ => hne)

/-- C8: `/uploadToVimeo` checks its preconditions in order — document
existence (404 `Análisis no encontrado`), then `qualifiesForVimeo` truthiness
(403 eligibility error carrying the stored score and the configured
threshold), then `vimeoStatus = uploaded` (conflict) — and a job that does
not qualify (flag false or absent, regardless of the remaining fields,
including an already-uploaded publish status) is rejected with the
eligibility error, with no Vimeo API call and no ledger write. -/
theorem publish_preconditions_order :
    (∀ (cfg : Cfg) (cr : Except JsErr VimeoCreateData) (pa : Except JsErr Unit)
       (de : Except JsErr VimeoDetailsData) (id : String) (f : FilePart),
      uploadToVimeo cfg ⟨none, cr, pa, de⟩ ⟨some id, some f⟩
        = (.notFound "Análisis no encontrado", [])) ∧
    (∀ (cfg : Cfg) (cr : Except JsErr VimeoCreateData) (pa : Except JsErr Unit)
       (de : Except JsErr VimeoDetailsData) (id : String) (f : FilePart)
       (res : Option Json) (vst vlink : Option String),
      uploadToVimeo cfg ⟨some ⟨some false, res, vst, vlink⟩, cr, pa, de⟩ ⟨some id, some f⟩
        = (.forbidden (eligMsg (jsOptChainProp res "score") cfg.scoreThreshold), [])) ∧
    (∀ (cfg : Cfg) (cr : Except JsErr VimeoCreateData) (pa : Except JsErr Unit)
       (de : Except JsErr VimeoDetailsData) (id : String) (f : FilePart)
       (res : Option Json) (vst vlink : Option String),
      uploadToVimeo cfg ⟨some ⟨none, res, vst, vlink⟩, cr, pa, de⟩ ⟨some id, some f⟩
        = (.forbidden (eligMsg (jsOptChainProp res "score") cfg.scoreThreshold), [])) ∧
    (∀ (cfg : Cfg) (cr : Except JsErr VimeoCreateData) (pa : Except JsErr Unit)
       (de : Except JsErr VimeoDetailsData) (id : String) (f : FilePart)
       (res : Option Json) (vlink : Option String),
      uploadToVimeo cfg ⟨some ⟨some true, res, some "uploaded", vlink⟩, cr, pa, de⟩
          ⟨some id, some f⟩
        = (.conflict "Este video ya fue subido a Vimeo" vlink, [])) :=
  ⟨fun _ _ _ _ _ _ => rfl, fun _ _ _ _ _ _ _ _ _ => rfl,
   fun _ _ _ _ _ _ _ _ _ => rfl, fun _ _ _ _ _ _ _ _ => rfl⟩

/-- C9: calling publish on a job whose `vimeoStatus` is already `uploaded`
returns the 400 conflict error whose body carries the stored `vimeoLink`,
makes no call to the publishing provider and performs no ledger write. -/
theorem publish_conflict_carries_link :
    ∀ (cfg : Cfg) (cr : Except JsErr VimeoCreateData) (pa : Except JsErr Unit)
      (de : Except JsErr VimeoDetailsData) (id : String) (f : FilePart)
      (res : Option Json) (vlink : Option String),
      uploadToVimeo cfg ⟨some ⟨some true, res, some "uploaded", vlink⟩, cr, pa, de⟩
          ⟨some id, some f⟩
          = (.conflict "Este video ya fue subido a Vimeo" vlink, [])
        ∧ (VResp.conflict "Este video ya fue subido a Vimeo" vlink).status = 400 :=
  fun _ _ _ _ _ _ _ _ => ⟨rfl, rfl⟩

/-- True exactly on the analysis-phase ledger fields. -/
def analysisField : FieldName → Bool
  | .status => true
  | .result => true
  | .error => true
  | .qualifiesForVimeo => true
  | .scoreThreshold => true
  | _ => false

/-- A write touches an analysis-phase field. -/
def writeTouchesAnalysis (w : Bool × List (FieldName × FieldVal)) : Bool :=
  w.2.any fun p => analysisField p.1

/-- A write stamps `updatedAt`. -/
def writeStampsUpdatedAt (w : Bool × List (FieldName × FieldVal)) : Bool :=
  w.2.any fun p =>
    match p.1 with
    | .updatedAt => true
    | _ => false

/-- C10: on every path of `/uploadToVimeo`, every ledger write touches only
publish-phase fields — never status, result, error, qualifiesForVimeo or
scoreThreshold — and every such write stamps `updatedAt`. -/
theorem publish_writes_only_publish_fields :
    ∀ (cfg : Cfg) (env : VEnv) (req : AReq),
      ((ledgerWrites (uploadToVimeo cfg env req).2).all fun w => !writeTouchesAnalysis w) = true
      ∧ ((ledgerWrites (uploadToVimeo cfg env req).2).all writeStampsUpdatedAt) = true := by
  intro cfg env req
  rcases req with ⟨aid, file⟩
  cases aid with
  | none => exact ⟨rfl, rfl⟩
  | some id =>
    cases file with
    | none => exact ⟨rfl, rfl⟩
    | some f =>
      rcases env with ⟨doc, cr, pa, de⟩
      cases doc with
      | none => exact ⟨rfl, rfl⟩
      | some data =>
        rcases data with ⟨q, res, vst, vlink⟩
        rcases cfg with ⟨vm, vms, thr, vc⟩
        by_cases hq : jsTruthyB q = false
        · simp [uploadToVimeo, hq, ledgerWrites_nil]
        · by_cases hv : vst = some "uploaded"
          · simp [uploadToVimeo, hq, hv, ledgerWrites_nil]
          · cases vc with
            | false =>
              simp [uploadToVimeo, uploadToVimeoAPI, hq, hv, ledgerWrites,
                uploadingFields, vimeoErrFields, writeTouchesAnalysis,
                writeStampsUpdatedAt, analysisField]
            | true =>
              cases cr with
              | error e =>
                simp [uploadToVimeo, uploadToVimeoAPI, hq, hv, ledgerWrites,
                  uploadingFields, vimeoErrFields, writeTouchesAnalysis,
                  writeStampsUpdatedAt, analysisField]
              | ok c =>
                cases pa with
                | error e =>
                  simp [uploadToVimeo, uploadToVimeoAPI, hq, hv, ledgerWrites,
                    uploadingFields, vimeoErrFields, writeTouchesAnalysis,
                    writeStampsUpdatedAt, analysisField]
                | ok _ =>
                  cases de with
                  | error e =>
                    simp [uploadToVimeo, uploadToVimeoAPI, hq, hv, ledgerWrites,
                      uploadingFields, vimeoErrFields, writeTouchesAnalysis,
                      writeStampsUpdatedAt, analysisField]
                  | ok d =>
                    simp [uploadToVimeo, uploadToVimeoAPI, hq, hv, ledgerWrites,
                      uploadingFields, uploadedFields, writeTouchesAnalysis,
                      writeStampsUpdatedAt, analysisField]

/-- Environment in which staging succeeds, the file is immediately ACTIVE and
the evaluation HTTP response carries no text at all
(`candidates[0].content.parts[0].text` absent). -/
def envC5 : AEnv :=
  ⟨.ok (some "https://upload.example/session"),
   .ok ⟨some ⟨some "files/abc123",
        some "https://generativelanguage.googleapis.com/v1beta/files/abc123"⟩⟩,
   fun _ => .ok (some "ACTIVE"), fun _ => 0,
   fun _ _ => .ok ⟨none⟩, .ok ()⟩

/-- C5 (code bug): when the evaluation response carries no text, server.js 393
substitutes the two-character empty-object JSON text (`|| ...`), parses it
successfully, and the job completes with status=done, an empty result object
and qualifiesForVimeo=false — the ledger is never written with status=error,
contradicting the fail-closed decode contract the spec prescribes (spec
section 9 itself flags this silent fallback as the defect to replace). -/
theorem absent_response_marks_done :
    analyzeVideo defaultCfg envC5 ⟨some "v1", some fileC⟩
      = (.ok "v1" none false,
         [.write true (procFields fileC),
          .stageInitCall, .stageUploadCall, .pollCall,
          .modelCall "gemini-2.0-flash-exp",
          .write true (doneFields (Json.obj []) false 10),
          .deleteCall (.ok ())]) := rfl
